import Mathlib

/- Verification development for the mopsimcbot repository.

   Shallow embedding of `src/mopsimcbot`: the typed parameter registry
   (`Parameter.set_value`, `PARAMS`), character-name extraction and profile
   building of `SimulationRequest`, the submission handler `_add_to_queue`,
   the `iterations`/`threads` commands with the `admins_only` check, and the
   single-worker simulation queue (`queue_loop` / `get_from_queue`) as a
   transition system. -/

/-! ## Python string primitives

Structural models of the Python string operations the cog uses:
`str.split(sep)` for a one-character separator, `str.splitlines`,
`str.startswith`, and `str.capitalize`. -/

/-- Python `s.split(c)` on the character list of `s`: splitting the empty
string yields `[[]]`, and every occurrence of `c` starts a new field. -/
def splitOnChar (c : Char) : List Char → List (List Char)
  | [] => [[]]
  | x :: xs =>
    let r := splitOnChar c xs
    if x = c then [] :: r
    else
      match r with
      | y :: ys => (x :: y) :: ys
      | [] => [[x]]

/-- Python `s.split(c)` for a single-character separator, on `String`. -/
def pySplit (c : Char) (s : String) : List String :=
  (splitOnChar c s.data).map String.mk

/-- Python `s.splitlines()` for texts whose line separator is `\n`.
(The trailing empty field produced when `s` ends in `\n` is harmless here:
it never starts with a class token.) -/
def pySplitlines (s : String) : List String :=
  pySplit '\n' s

/-- Python `s.startswith(p)`. -/
def pyStartsWith (s p : String) : Bool :=
  p.data.isPrefixOf s.data

/-- Python `s.capitalize()`: first character uppercased, the rest lowercased. -/
def pyCapitalize (s : String) : String :=
  match s.data with
  | [] => ""
  | c :: cs => String.mk (c.toUpper :: cs.map Char.toLower)

/-- The characters of `l` strictly after the first occurrence of `c`
(everything when the first occurrence is dropped; `[]` when `c ∉ l`). -/
def dropThroughChar (c : Char) (l : List Char) : List Char :=
  (l.dropWhile (fun a => a != c)).drop 1

/-- The second field of `l` split on `c`: the characters after the first
occurrence of `c` and before the next one. -/
def fieldAfterChar (c : Char) (l : List Char) : List Char :=
  (dropThroughChar c l).takeWhile (fun a => a != c)

/-! ## Parameter registry (`Parameter`, `PARAMS`) -/

/-- `ParamType = Union[str, int]` (simc_cog.py line 24). -/
inductive ParamType
  | str (s : String)
  | int (n : Int)
deriving DecidableEq

/-- The `Parameter` dataclass (simc_cog.py lines 27-53). -/
structure Parameter where
  parameter : String
  value : ParamType
  v_min : Option Int := none
  v_max : Option Int := none
deriving DecidableEq

/-- The exceptions `set_value` can raise: `TypeError` or `ValueError`,
carrying the message passed to the constructor. -/
inductive SetError
  | typeError (msg : String)
  | valueError (msg : String)
deriving DecidableEq

/-- Do the two values carry the same Python type (`type(value) != type(self.value)`)? -/
def sameVariant : ParamType → ParamType → Bool
  | .str _, .str _ => true
  | .int _, .int _ => true
  | _, _ => false

/-- Python `repr` of the type of a value, as interpolated into the
`TypeError` message. -/
def pyTypeName : ParamType → String
  | .str _ => "<class 'str'>"
  | .int _ => "<class 'int'>"

/-- Rendering of an optional int as Python interpolates it into an f-string. -/
def optIntStr : Option Int → String
  | none => "None"
  | some n => toString n

/-- Is `n` below the optional lower bound (`v_min is not None and value < v_min`)? -/
def belowMin : Option Int → Int → Bool
  | none, _ => false
  | some m, n => n < m

/-- Is `n` above the optional upper bound (`v_max is not None and value > v_max`)? -/
def aboveMax : Option Int → Int → Bool
  | none, _ => false
  | some m, n => m < n

/-- `Parameter.set_value` (simc_cog.py lines 34-50). Checks the type first,
then for integers the bounds; the stored value is only assigned after all
checks pass. Note: the `v_max` violation message interpolates `self.v_min`,
exactly as in the source. -/
def set_value (p : Parameter) (value : ParamType) : Except SetError Parameter :=
  if sameVariant value p.value = false then
    .error (.typeError ("Type mismatch. Parameter value must be type: " ++ pyTypeName p.value))
  else
    match value with
    | .str s => .ok { p with value := .str s }
    | .int n =>
      if belowMin p.v_min n then
        .error (.valueError (p.parameter ++ " value must be at least " ++ optIntStr p.v_min ++ "."))
      else if aboveMax p.v_max n then
        .error (.valueError (p.parameter ++ " value cannot exceed " ++ optIntStr p.v_min ++ "."))
      else
        .ok { p with value := .int n }

/-- A `set_value` call as a state update on the stored parameter: the Python
method mutates `self.value` on success and leaves `self` untouched when it
raises. -/
def run_set (p : Parameter) (value : ParamType) : Parameter × Option SetError :=
  match set_value p value with
  | .ok p2 => (p2, none)
  | .error e => (p, some e)

/-- `Parameter.__str__` (simc_cog.py lines 52-53): `f"{self.parameter}={self.value}"`. -/
def valueStr : ParamType → String
  | .str s => s
  | .int n => toString n

/-- The `parameter=value` line produced by `str(p)`. -/
def paramStr (p : Parameter) : String :=
  p.parameter ++ "=" ++ valueStr p.value

/-- The default `html` parameter of `PARAMS`. -/
def htmlParam : Parameter :=
  { parameter := "html", value := .str "out.html" }

/-- The default `threads` parameter of `PARAMS` (bounds 1..4). -/
def thrParam : Parameter :=
  { parameter := "threads", value := .int 1, v_min := some 1, v_max := some 4 }

/-- The default `iterations` parameter of `PARAMS` (bounds 500..20000). -/
def iterParam : Parameter :=
  { parameter := "iterations", value := .int 5000, v_min := some 500, v_max := some 20000 }

/-- The `PARAMS` registry (simc_cog.py lines 56-60), as a list in dict
insertion order. -/
def PARAMS : List Parameter :=
  [htmlParam, thrParam, iterParam]

/-! ## Character-name extraction and profile building (`SimulationRequest`) -/

/-- Modelled from the spec: the fixed set of recognized class tokens,
`CLASSES`, imported from `mopsimcbot/wow.py` — a file that is not part of the
sources. The spec describes it as "a fixed, known set of category tokens (the
valid class identifiers)" and names `warrior` as a recognized token; the
values here are the Mists of Pandaria class identifiers in SimulationCraft
spelling. -/
def CLASSES : List String :=
  ["deathknight", "druid", "hunter", "mage", "monk", "paladin",
   "priest", "rogue", "shaman", "warlock", "warrior"]

/-- Does a line start with one of the class tokens
(`any(line.startswith(c) for c in CLASSES)`)? -/
def lineMatches (classes : List String) (line : String) : Bool :=
  classes.any (fun c => pyStartsWith line c)

/-- The first line of the character text that starts with a class token —
the line on which `get_character_name` returns. -/
def firstClassLine (classes : List String) (character : String) : Option String :=
  (pySplitlines character).find? (lineMatches classes)

/-- `SimulationRequest.get_character_name` (simc_cog.py lines 77-83).
Returns `none` when the Python code raises `IndexError` — i.e. when the
matched line contains no `=`, so `line.split("=")` has one element and
index `[1]` is out of range. Falls back on the author name when no line
matches. -/
def get_character_name (classes : List String) (character author_name : String) :
    Option String :=
  match firstClassLine classes character with
  | some line => ((pySplit '=' line).get? 1).map pyCapitalize
  | none => some author_name

/-- Modelled from the spec: the spec's description of name extraction — "the
name is the text after the first `=` delimiter on that line, capitalized",
falling back on the submitter's name. Stated for comparison against the
code's `get_character_name`. -/
def spec_character_name (classes : List String) (character author_name : String) : String :=
  match firstClassLine classes character with
  | some line => pyCapitalize (String.mk (dropThroughChar '=' line.data))
  | none => author_name

/-- Python `"\n".join(xs)`. -/
def joinLines : List String → String
  | [] => ""
  | [x] => x
  | x :: y :: xs => x ++ "\n" ++ joinLines (y :: xs)

/-- `SimulationRequest._get_params` (simc_cog.py lines 85-86):
`"\n".join(str(p) for p in PARAMS.values())`. -/
def _get_params (ps : List Parameter) : String :=
  joinLines (ps.map paramStr)

/-- `SimulationRequest.make_simc_profile` (simc_cog.py lines 88-100), as the
text written to the profile file: the parameter block (with the scaling
directive appended when `self.scaling`), one `f.write(f"{params}\n")`, then
the raw character text verbatim. -/
def make_simc_profile (ps : List Parameter) (scaling : Bool) (character : String) : String :=
  let params := _get_params ps
  let params := if scaling then params ++ "\ncalculate_scale_factors=1\n" else params
  params ++ "\n" ++ character

/-- Modelled from the spec: the Profile Builder contract — `registry.render()`,
then the scaling directive line exactly when scaling weights are requested,
then the raw character text verbatim, "with the header and the character text
separated by a single blank line". Stated for comparison against the code's
`make_simc_profile`. -/
def spec_build (ps : List Parameter) (scaling : Bool) (character : String) : String :=
  _get_params ps ++ (if scaling then "\ncalculate_scale_factors=1" else "") ++ "\n\n" ++ character

/-! ## Submission (`SimcCog._add_to_queue`) -/

/-- The fields of a `SimulationRequest` relevant to queueing: the raw
character text, the submitting author, and the scaling mode. -/
structure SimulationRequest where
  character : String
  author_name : String
  scaling : Bool
deriving DecidableEq

/-- Outcome of a `.dps`/`.scaling` submission. -/
inductive SubmitResult
  | rejected (msg : String)
  | enqueued (name : String) (msg : String)
  | raised
deriving DecidableEq

/-- `SimcCog._add_to_queue` (simc_cog.py lines 187-201): texts starting with
`http` are rejected with a message and never enqueued; otherwise the request
is constructed (`raised` when `get_character_name` raises `IndexError` in
`__post_init__`, in which case nothing is sent or enqueued), the
acknowledgement is sent, and the request is appended to the queue. -/
def _add_to_queue (queue : List SimulationRequest) (character author : String)
    (scaling : Bool) : List SimulationRequest × SubmitResult :=
  if pyStartsWith character "http" then
    (queue, .rejected "Character armory url is not supported (yet)!")
  else
    match get_character_name CLASSES character author with
    | none => (queue, .raised)
    | some name =>
      (queue ++ [{ character := character, author_name := author, scaling := scaling }],
       .enqueued name ("Added **`" ++ name ++ "`** to the queue."))

/-! ## Setting commands and the admins-only check -/

/-- The reply a settings command produces. -/
inductive CmdReply
  | showCurrent (v : ParamType)
  | setOk (param : String) (v : ParamType)
  | err (msg : String)
deriving DecidableEq

/-- The message text of an exception, as `"\n".join(e.args)` renders it. -/
def errText : SetError → String
  | .typeError m => m
  | .valueError m => m

/-- `SimcCog._set_param` (simc_cog.py lines 233-241) applied to the named
parameter's entry: on an exception the error text is sent and the registry
entry is unchanged; on success the entry is replaced and a confirmation
naming the capitalized parameter is sent. -/
def _set_param (p : Parameter) (value : ParamType) : Parameter × CmdReply :=
  match set_value p value with
  | .error e => (p, .err (errText e))
  | .ok p2 => (p2, .setOk (pyCapitalize p.parameter) value)

/-- `SimcCog.setget_iterations` (simc_cog.py lines 220-224): `iterations`
defaults to `None`, and `if not iterations:` is also true for `0`, so both
display the current value without attempting a set. -/
def setget_iterations (p : Parameter) (iterations : Option Int) : Parameter × CmdReply :=
  match iterations with
  | none => (p, .showCurrent p.value)
  | some n => if n = 0 then (p, .showCurrent p.value) else _set_param p (.int n)

/-- The body of `SimcCog.setget_threads` (simc_cog.py lines 226-231), after
the `admins_only` check has passed; same `if not threads:` truthiness as
`setget_iterations`. -/
def setget_threads (p : Parameter) (threads : Option Int) : Parameter × CmdReply :=
  match threads with
  | none => (p, .showCurrent p.value)
  | some n => if n = 0 then (p, .showCurrent p.value) else _set_param p (.int n)

/-- The permissions object of a guild member (`ctx.author.guild_permissions`). -/
structure GuildPermissions where
  administrator : Bool
deriving DecidableEq

/-- A command author: `guild_permissions` is `none` when the attribute is
absent, which is the case for `discord.User` authors in direct messages. -/
structure Author where
  id : Nat
  guild_permissions : Option GuildPermissions
deriving DecidableEq

/-- `OWNER_ID` (checks.py line 4). -/
def OWNER_ID : Nat := 103890994440728576

/-- The predicate of the `admins_only` decorator (checks.py lines 7-12):
requires the `guild_permissions` attribute to exist, then administrator or
the hardcoded owner id. -/
def admins_only (a : Author) : Bool :=
  match a.guild_permissions with
  | some gp => gp.administrator || a.id == OWNER_ID
  | none => false

/-- The `.threads` command as dispatched through its `admins_only` check:
when the check fails the command body never runs — no reply, no registry
change. -/
def threads_command (a : Author) (p : Parameter) (threads : Option Int) :
    Parameter × Option CmdReply :=
  if admins_only a then
    let r := setget_threads p threads
    (r.1, some r.2)
  else
    (p, none)

/-! ## The queue worker (`queue_loop` / `get_from_queue`) as a transition
system

One worker task runs `queue_loop`; submissions enqueue concurrently. The
worker's control point is: idle between jobs, `fetched` after
`await self.queue.get()` returns but before `self.current = request`, and
`running` while `request.do_sim()` is in flight. A run ends in one of three
ways — `do_sim` returns, `subprocess.CalledProcessError` is caught and an
error message is sent, or the `timeout(300)` context raises
`asyncio.TimeoutError`, which `queue_loop` catches with `pass`. All three
paths run the `finally: self.current = None` clauses. -/

/-- How a dequeued job's execution ends. -/
inductive Outcome
  | success
  | procError (output : String)
  | timedOut
deriving DecidableEq

/-- The messages delivered because of a finished job: the results message of
`_send_results` on success (the author's mention modelled by `author_name`),
the `ERROR:` message from the `CalledProcessError` handler, and nothing at
all on timeout (`except asyncio.TimeoutError: pass`). -/
def messagesFor (r : SimulationRequest) (o : Outcome) : List String :=
  match o with
  | .success => ["Your simulation results are ready, " ++ r.author_name ++ "."]
  | .procError output => ["ERROR: " ++ output]
  | .timedOut => []

/-- The worker's control point. -/
inductive Ctrl
  | idle
  | fetched (r : SimulationRequest)
  | running (r : SimulationRequest)
deriving DecidableEq

/-- Queue worker state: the pending FIFO (`self.queue`), the `self.current`
field, the worker control point, history logs of enqueued / dequeued /
executed jobs, and the log of sent messages. -/
structure WorkerState where
  pending : List SimulationRequest
  current : Option SimulationRequest
  ctrl : Ctrl
  enqueuedLog : List SimulationRequest
  startedLog : List SimulationRequest
  runLog : List SimulationRequest
  sent : List String
deriving DecidableEq

/-- State at cog construction: empty queue, `self.current = None`, idle. -/
def initState : WorkerState :=
  { pending := [], current := none, ctrl := .idle,
    enqueuedLog := [], startedLog := [], runLog := [], sent := [] }

/-- Effect of `await self.queue.put(request)`: FIFO append at the back. -/
def enqueueState (s : WorkerState) (r : SimulationRequest) : WorkerState :=
  { s with pending := s.pending ++ [r], enqueuedLog := s.enqueuedLog ++ [r] }

/-- Effect of `request = await self.queue.get()`: FIFO pop at the front. -/
def fetchState (s : WorkerState) (r : SimulationRequest) (rest : List SimulationRequest) :
    WorkerState :=
  { s with ctrl := .fetched r, pending := rest, startedLog := s.startedLog ++ [r] }

/-- Effect of `self.current = request` followed by entering `request.do_sim()`. -/
def beginState (s : WorkerState) (r : SimulationRequest) : WorkerState :=
  { s with ctrl := .running r, current := some r, runLog := s.runLog ++ [r] }

/-- Effect of a run ending with outcome `o`: the handlers send `messagesFor`
and every path runs `finally: self.current = None`, returning the worker to
its loop. -/
def finishState (s : WorkerState) (r : SimulationRequest) (o : Outcome) : WorkerState :=
  { s with ctrl := .idle, current := none, sent := s.sent ++ messagesFor r o }

/-- The transition relation of the queue worker. Submissions (`enqueue`) can
interleave at any control point; the worker serially fetches, starts, and
finishes jobs. -/
inductive Step : WorkerState → WorkerState → Prop
  | enqueue (s : WorkerState) (r : SimulationRequest) :
      Step s (enqueueState s r)
  | fetch (s : WorkerState) (r : SimulationRequest) (rest : List SimulationRequest) :
      s.ctrl = .idle → s.pending = r :: rest →
      Step s (fetchState s r rest)
  | beginSim (s : WorkerState) (r : SimulationRequest) :
      s.ctrl = .fetched r →
      Step s (beginState s r)
  | finish (s : WorkerState) (r : SimulationRequest) (o : Outcome) :
      s.ctrl = .running r →
      Step s (finishState s r o)

/-- States reachable from cog construction. -/
inductive Reachable : WorkerState → Prop
  | init : Reachable initState
  | step {s s' : WorkerState} : Reachable s → Step s s' → Reachable s'

/-- The value `self.current` must hold at each control point. -/
def ctrlCurrent : Ctrl → Option SimulationRequest
  | .running r => some r
  | _ => none

/-- The job held between `queue.get()` and `self.current = request`. -/
def ctrlFetchBuf : Ctrl → List SimulationRequest
  | .fetched r => [r]
  | _ => []

/-- Number of jobs executing at a control point. -/
def execCount : Ctrl → Nat
  | .running _ => 1
  | _ => 0

/-- The worker's inductive invariant: `current` agrees with the control
point, dequeued jobs followed by the pending queue are exactly the enqueued
jobs in order, and executed jobs followed by the fetch buffer are exactly
the dequeued jobs in order. -/
def WorkerInv (s : WorkerState) : Prop :=
  s.current = ctrlCurrent s.ctrl ∧
  s.startedLog ++ s.pending = s.enqueuedLog ∧
  s.runLog ++ ctrlFetchBuf s.ctrl = s.startedLog


/-! ## Helper lemmas -/

/-- String concatenation is associative. -/
theorem string_append_assoc (a b c : String) : a ++ b ++ c = a ++ (b ++ c) := by
  apply String.ext
  simp [String.data_append, List.append_assoc]

/-- Rebuilding a string from its character data gives the string back. -/
theorem string_mk_data (s : String) : String.mk s.data = s := by
  cases s
  rfl

/-- `splitOnChar` always produces at least one field, and the first field is
the longest separator-free front of the list. -/
theorem splitOnChar_head (c : Char) (l : List Char) :
    ∃ t, splitOnChar c l = l.takeWhile (fun a => a != c) :: t := by
  induction l with
  | nil => exact ⟨[], rfl⟩
  | cons x xs ih =>
    by_cases h : x = c
    · subst h
      exact ⟨splitOnChar x xs, by simp [splitOnChar, List.takeWhile_cons]⟩
    · obtain ⟨t, ht⟩ := ih
      have hb : (x != c) = true := by simp [h]
      refine ⟨t, ?_⟩
      simp only [splitOnChar, if_neg h, ht, List.takeWhile_cons, hb]
      simp

/-- A list without the separator splits into itself as the single field. -/
theorem splitOnChar_of_not_mem (c : Char) (l : List Char) (h : c ∉ l) :
    splitOnChar c l = [l] := by
  induction l with
  | nil => rfl
  | cons x xs ih =>
    have hx : ¬ x = c := fun he => h (by rw [← he]; exact List.mem_cons_self x xs)
    have hxs : c ∉ xs := fun hm => h (List.mem_cons_of_mem _ hm)
    simp only [splitOnChar, if_neg hx, ih hxs]

/-- When the separator occurs, the second field of the split is the segment
between its first occurrence and the following one. -/
theorem splitOnChar_get1 (c : Char) (l : List Char) (h : c ∈ l) :
    (splitOnChar c l).get? 1 = some (fieldAfterChar c l) := by
  induction l with
  | nil => cases h
  | cons x xs ih =>
    by_cases hx : x = c
    · subst hx
      obtain ⟨t, ht⟩ := splitOnChar_head x xs
      simp only [splitOnChar, if_pos rfl, List.get?_cons_succ, ht, List.get?_cons_zero]
      simp [fieldAfterChar, dropThroughChar, List.dropWhile_cons]
    · have hmem : c ∈ xs := by
        rcases List.mem_cons.mp h with h1 | h2
        · exact absurd h1.symm hx
        · exact h2
      obtain ⟨t, ht⟩ := splitOnChar_head c xs
      have hb : (x != c) = true := by simp [hx]
      rw [ht] at ih
      simp only [splitOnChar, if_neg hx, ht, List.get?_cons_succ, List.get?_cons_zero] at ih ⊢
      simpa [fieldAfterChar, dropThroughChar, List.dropWhile_cons, hb] using ih hmem

/-- `pySplit` version of `splitOnChar_get1`. -/
theorem pySplit_get1 (c : Char) (s : String) (h : c ∈ s.data) :
    (pySplit c s).get? 1 = some (String.mk (fieldAfterChar c s.data)) := by
  unfold pySplit
  rw [List.get?_map, splitOnChar_get1 c s.data h]
  rfl

/-- `pySplit` version of `splitOnChar_of_not_mem`. -/
theorem pySplit_of_not_mem (c : Char) (s : String) (h : c ∉ s.data) :
    pySplit c s = [s] := by
  simp [pySplit, splitOnChar_of_not_mem c s.data h, string_mk_data]

/-- The worker invariant holds in every reachable state. -/
theorem worker_inv {s : WorkerState} (h : Reachable s) : WorkerInv s := by
  induction h with
  | init => exact ⟨rfl, rfl, rfl⟩
  | step hr hstep ih =>
    obtain ⟨h1, h2, h3⟩ := ih
    rename_i s s2
    cases hstep with
    | enqueue r =>
      refine ⟨h1, ?_, h3⟩
      show s.startedLog ++ (s.pending ++ [r]) = s.enqueuedLog ++ [r]
      rw [← List.append_assoc, h2]
    | fetch r rest hc hp =>
      refine ⟨?_, ?_, ?_⟩
      · show s.current = none
        rw [h1, hc]
        rfl
      · show (s.startedLog ++ [r]) ++ rest = s.enqueuedLog
        rw [List.append_assoc]
        simpa [hp] using h2
      · show s.runLog ++ [r] = s.startedLog ++ [r]
        rw [hc] at h3
        simp only [ctrlFetchBuf, List.append_nil] at h3
        rw [h3]
    | beginSim r hc =>
      refine ⟨rfl, h2, ?_⟩
      show (s.runLog ++ [r]) ++ ctrlFetchBuf (Ctrl.running r) = s.startedLog
      rw [hc] at h3
      simpa [ctrlFetchBuf] using h3
    | finish r o hc =>
      refine ⟨rfl, h2, ?_⟩
      show s.runLog ++ ctrlFetchBuf Ctrl.idle = s.startedLog
      rw [hc] at h3
      simpa [ctrlFetchBuf] using h3

/-! ## Concrete jobs and reachable demonstration states -/

/-- A concrete DPS job. -/
def jobA : SimulationRequest :=
  { character := "warrior=thrall", author_name := "peder", scaling := false }

/-- A concrete scaling job. -/
def jobB : SimulationRequest :=
  { character := "mage=jaina", author_name := "tyrande", scaling := true }

/-- State after `jobA` was submitted. -/
def stateQueued : WorkerState := enqueueState initState jobA

/-- State after the worker dequeued `jobA`. -/
def stateFetched : WorkerState := fetchState stateQueued jobA []

/-- State while the worker is executing `jobA`. -/
def stateRun : WorkerState := beginState stateFetched jobA

/-- The execution state is reachable from the initial state. -/
theorem reach_stateRun : Reachable stateRun :=
  Reachable.step
    (Reachable.step
      (Reachable.step Reachable.init (Step.enqueue initState jobA))
      (Step.fetch stateQueued jobA [] rfl rfl))
    (Step.beginSim stateFetched jobA rfl)

/-- A state executing `jobA` with `jobB` still pending. -/
def stateTimeoutDemo : WorkerState :=
  { pending := [jobB], current := some jobA, ctrl := .running jobA,
    enqueuedLog := [jobA, jobB], startedLog := [jobA], runLog := [jobA], sent := [] }

/-! ## Claim theorems -/

/-- C1: In every reachable worker state at most one job is executing
(`execCount` of the single worker's control point is at most 1); `current`
is non-null only while a job is executing, and then holds exactly the
executing job; and from any state where a job is executing, every way the
job can finish — success, process failure, or timeout — is a step of the
worker that clears `current`. -/
theorem C1_single_execution (s : WorkerState) (h : Reachable s) :
    execCount s.ctrl ≤ 1 ∧
    (∀ r : SimulationRequest, s.current = some r → s.ctrl = Ctrl.running r) ∧
    (∀ (r : SimulationRequest) (o : Outcome), s.ctrl = Ctrl.running r →
      Step s (finishState s r o) ∧ (finishState s r o).current = none) := by
  obtain ⟨h1, h2, h3⟩ := worker_inv h
  refine ⟨?_, ?_, fun r o hc => ⟨Step.finish s r o hc, rfl⟩⟩
  · cases hctrl : s.ctrl <;> simp [execCount]
  · intro r hcur
    rw [h1] at hcur
    cases hctrl : s.ctrl with
    | idle =>
      rw [hctrl] at hcur
      simp [ctrlCurrent] at hcur
    | fetched r2 =>
      rw [hctrl] at hcur
      simp [ctrlCurrent] at hcur
    | running r2 =>
      rw [hctrl] at hcur
      simp only [ctrlCurrent, Option.some.injEq] at hcur
      rw [hcur]

/-- Witness for C1 at the concrete reachable state `stateRun`, in which the
worker is executing `jobA`. -/
theorem C1_witness :
    execCount stateRun.ctrl ≤ 1 ∧
    stateRun.ctrl = Ctrl.running jobA ∧
    (finishState stateRun jobA Outcome.timedOut).current = none := by
  have h := C1_single_execution stateRun reach_stateRun
  exact ⟨h.1, h.2.1 jobA rfl, (h.2.2 jobA Outcome.timedOut rfl).2⟩

/-- C2 counterexample: the claim says the submitter of a timed-out job
receives a timeout-failure report, but `queue_loop` catches
`asyncio.TimeoutError` with `pass`: the timeout outcome produces no message
at all, while a process failure does produce one. -/
theorem C2_counterexample :
    messagesFor jobA Outcome.timedOut = [] ∧
    messagesFor jobA (Outcome.procError "boom") ≠ [] := by
  exact ⟨rfl, by simp [messagesFor]⟩

/-- C2 (amended): when a running job times out, the worker abandons it
silently — the finish step for the timeout outcome sends no message to
anyone, clears `current`, leaves the pending queue intact, and returns the
worker to idle, from where the next pending job can immediately be fetched. -/
theorem C2_timeout_silent (s : WorkerState) (r : SimulationRequest)
    (h : s.ctrl = Ctrl.running r) :
    Step s (finishState s r Outcome.timedOut) ∧
    (finishState s r Outcome.timedOut).current = none ∧
    (finishState s r Outcome.timedOut).ctrl = Ctrl.idle ∧
    (finishState s r Outcome.timedOut).sent = s.sent ∧
    (finishState s r Outcome.timedOut).pending = s.pending ∧
    ∀ (r2 : SimulationRequest) (rest : List SimulationRequest),
      s.pending = r2 :: rest →
      Step (finishState s r Outcome.timedOut)
        (fetchState (finishState s r Outcome.timedOut) r2 rest) ∧
      (fetchState (finishState s r Outcome.timedOut) r2 rest).ctrl = Ctrl.fetched r2 ∧
      (fetchState (finishState s r Outcome.timedOut) r2 rest).current = none := by
  refine ⟨Step.finish s r Outcome.timedOut h, rfl, rfl, ?_, rfl, ?_⟩
  · show s.sent ++ messagesFor r Outcome.timedOut = s.sent
    simp [messagesFor]
  · intro r2 rest hp
    exact ⟨Step.fetch _ r2 rest rfl hp, rfl, rfl⟩

/-- Witness for C2 (amended) at `stateTimeoutDemo`: `jobA` is executing,
`jobB` is pending; the timeout finish sends nothing and the worker can fetch
`jobB` right away. -/
theorem C2_witness :
    Step stateTimeoutDemo (finishState stateTimeoutDemo jobA Outcome.timedOut) ∧
    (finishState stateTimeoutDemo jobA Outcome.timedOut).current = none ∧
    (finishState stateTimeoutDemo jobA Outcome.timedOut).sent = ([] : List String) ∧
    Step (finishState stateTimeoutDemo jobA Outcome.timedOut)
      (fetchState (finishState stateTimeoutDemo jobA Outcome.timedOut) jobB []) := by
  have h := C2_timeout_silent stateTimeoutDemo jobA rfl
  exact ⟨h.1, h.2.1, h.2.2.2.1, (h.2.2.2.2.2 jobB [] rfl).1⟩

/-- C3: FIFO — in every reachable state, the jobs dequeued so far followed
by the still-pending jobs are exactly the enqueued jobs in submission order;
hence the dequeue order (`startedLog`) and the execution order (`runLog`)
are both initial segments of the submission order, with no reordering. -/
theorem C3_fifo_order (s : WorkerState) (h : Reachable s) :
    s.startedLog ++ s.pending = s.enqueuedLog ∧
    s.startedLog = s.enqueuedLog.take s.startedLog.length ∧
    s.runLog = s.enqueuedLog.take s.runLog.length := by
  obtain ⟨h1, h2, h3⟩ := worker_inv h
  refine ⟨h2, ?_, ?_⟩
  · rw [← h2]
    exact (List.take_left _ _).symm
  · have hr : s.runLog ++ (ctrlFetchBuf s.ctrl ++ s.pending) = s.enqueuedLog := by
      rw [← List.append_assoc, h3, h2]
    rw [← hr]
    exact (List.take_left _ _).symm

/-- Witness for C3 at the concrete reachable state `stateRun`. -/
theorem C3_witness :
    stateRun.startedLog ++ stateRun.pending = stateRun.enqueuedLog ∧
    stateRun.startedLog = stateRun.enqueuedLog.take stateRun.startedLog.length ∧
    stateRun.runLog = stateRun.enqueuedLog.take stateRun.runLog.length :=
  C3_fifo_order stateRun reach_stateRun

/-- C4: `set_value` fails with a `TypeError` exactly when the new value's
variant differs from the stored one, fails with a `ValueError` when an
integer value violates a present bound, succeeds otherwise replacing the
value, and on every failure the stored parameter is returned unchanged. -/
theorem C4_set_value_semantics (p : Parameter) (v : ParamType) :
    (sameVariant v p.value = false →
      ∃ m, set_value p v = .error (.typeError m)) ∧
    (∀ n : Int, v = .int n → sameVariant v p.value = true →
      (belowMin p.v_min n || aboveMax p.v_max n) = true →
      ∃ m, set_value p v = .error (.valueError m)) ∧
    (sameVariant v p.value = true →
      (∀ n : Int, v = .int n → (belowMin p.v_min n || aboveMax p.v_max n) = false) →
      set_value p v = .ok { p with value := v }) ∧
    (∀ e, set_value p v = .error e → run_set p v = (p, some e)) := by
  refine ⟨?_, ?_, ?_, ?_⟩
  · intro hsv
    exact ⟨"Type mismatch. Parameter value must be type: " ++ pyTypeName p.value,
           by simp [set_value, hsv]⟩
  · intro n hn hsv hb
    subst hn
    cases hbm : belowMin p.v_min n with
    | true =>
      exact ⟨p.parameter ++ " value must be at least " ++ optIntStr p.v_min ++ ".",
             by simp [set_value, hsv, hbm]⟩
    | false =>
      cases ham : aboveMax p.v_max n with
      | true =>
        exact ⟨p.parameter ++ " value cannot exceed " ++ optIntStr p.v_min ++ ".",
               by simp [set_value, hsv, hbm, ham]⟩
      | false =>
        rw [hbm, ham] at hb
        cases hb
  · intro hsv hok
    cases v with
    | str s => simp [set_value, hsv]
    | int n =>
      have hb := hok n rfl
      rw [Bool.or_eq_false_iff] at hb
      simp [set_value, hsv, hb.1, hb.2]
  · intro e he
    simp [run_set, he]

/-- Witness for C4 on the `threads` parameter: a string value is a type
mismatch, 9 is out of range (and the registry entry is unchanged, with the
message interpolating `v_min` exactly as the source does), 2 succeeds. -/
theorem C4_witness :
    (∃ m, set_value thrParam (ParamType.str "a") = .error (.typeError m)) ∧
    (∃ m, set_value thrParam (ParamType.int 9) = .error (.valueError m)) ∧
    set_value thrParam (ParamType.int 2) = .ok { thrParam with value := ParamType.int 2 } ∧
    run_set thrParam (ParamType.int 9) =
      (thrParam, some (.valueError "threads value cannot exceed 1.")) := by
  refine ⟨(C4_set_value_semantics thrParam (ParamType.str "a")).1 (by decide),
          (C4_set_value_semantics thrParam (ParamType.int 9)).2.1 9 rfl (by decide) (by decide),
          (C4_set_value_semantics thrParam (ParamType.int 2)).2.2.1 (by decide) ?_,
          (C4_set_value_semantics thrParam (ParamType.int 9)).2.2.2
            (.valueError "threads value cannot exceed 1.") rfl⟩
  intro n hn
  cases hn
  decide

/-- C5 counterexample: on a matched line with a second `=`, the code takes
`line.split("=")[1]` — the segment between the first and second `=` — not
"the text after the first `=`" as the claim states: for
`warrior=anduin=wrynn` the code extracts `Anduin`, while the claimed rule
(`spec_character_name`) yields `Anduin=wrynn`. -/
theorem C5_counterexample :
    get_character_name CLASSES "warrior=anduin=wrynn" "peder" = some "Anduin" ∧
    spec_character_name CLASSES "warrior=anduin=wrynn" "peder" = "Anduin=wrynn" ∧
    get_character_name CLASSES "warrior=anduin=wrynn" "peder" ≠
      some (spec_character_name CLASSES "warrior=anduin=wrynn" "peder") := by
  exact ⟨by decide, by decide, by decide⟩

/-- C5 (amended): when some line of the character text starts with a
recognized class token and the first such line contains an `=`, the
extracted display name is the capitalization of the segment between the
first `=` and the following `=` (the whole remainder when there is only
one `=`); when no line starts with a class token, the display name is the
submitter's name. The extraction is a pure function of the text and the
submitter name. -/
theorem C5_name_extraction (character author : String) :
    (firstClassLine CLASSES character = none →
      get_character_name CLASSES character author = some author) ∧
    (∀ line : String, firstClassLine CLASSES character = some line →
      '=' ∈ line.data →
      get_character_name CLASSES character author =
        some (pyCapitalize (String.mk (fieldAfterChar '=' line.data)))) := by
  constructor
  · intro h0
    simp [get_character_name, h0]
  · intro line hline hmem
    simp only [get_character_name, hline]
    rw [pySplit_get1 '=' line hmem]
    rfl

/-- Witness for C5 (amended): the spec's own example `warrior=Thrall` gives
`Thrall`, and a text without class-prefixed lines falls back on the
submitter. -/
theorem C5_witness :
    get_character_name CLASSES "warrior=Thrall" "peder" =
      some (pyCapitalize (String.mk (fieldAfterChar '=' "warrior=Thrall".data))) ∧
    get_character_name CLASSES "hello there" "peder" = some "peder" := by
  exact ⟨(C5_name_extraction "warrior=Thrall" "peder").2 "warrior=Thrall"
           (by decide) (by decide),
         (C5_name_extraction "hello there" "peder").1 (by decide)⟩

/-- C6 counterexample: the claim says the header and the character text are
separated by a single blank line, but in non-scaling mode the code writes
only a single newline between them (`f.write(f"{params}\n")`): the built
text differs from the spec's `spec_build` shape. -/
theorem C6_counterexample :
    make_simc_profile PARAMS false "warrior=thrall" ≠
      spec_build PARAMS false "warrior=thrall" ∧
    make_simc_profile PARAMS false "warrior=thrall" =
      "html=out.html\nthreads=1\niterations=5000\nwarrior=thrall" ∧
    spec_build PARAMS false "warrior=thrall" =
      "html=out.html\nthreads=1\niterations=5000\n\nwarrior=thrall" := by
  exact ⟨by decide, by decide, by decide⟩

/-- C6 (amended): the built profile text is the registry's insertion-ordered
`key=value` block, then — exactly when the job is a scaling job — the
`calculate_scale_factors=1` directive line, then a single newline, then the
raw character text verbatim; so a blank line separates header and character
text in scaling mode only (the directive's trailing newline plus the written
newline), while in DPS mode a single line break separates them. -/
theorem C6_profile_text (ps : List Parameter) (character : String) :
    make_simc_profile ps true character = spec_build ps true character ∧
    make_simc_profile ps true character =
      _get_params ps ++ "\ncalculate_scale_factors=1\n\n" ++ character ∧
    make_simc_profile ps false character = _get_params ps ++ "\n" ++ character := by
  have h2 : make_simc_profile ps true character =
      _get_params ps ++ "\ncalculate_scale_factors=1\n\n" ++ character := by
    show _get_params ps ++ "\ncalculate_scale_factors=1\n" ++ "\n" ++ character =
      _get_params ps ++ "\ncalculate_scale_factors=1\n\n" ++ character
    rw [string_append_assoc (_get_params ps) "\ncalculate_scale_factors=1\n" "\n"]
    rfl
  have h1 : spec_build ps true character =
      _get_params ps ++ "\ncalculate_scale_factors=1\n\n" ++ character := by
    show _get_params ps ++ "\ncalculate_scale_factors=1" ++ "\n\n" ++ character =
      _get_params ps ++ "\ncalculate_scale_factors=1\n\n" ++ character
    rw [string_append_assoc (_get_params ps) "\ncalculate_scale_factors=1" "\n\n"]
    rfl
  exact ⟨by rw [h2, h1], h2, rfl⟩

/-- C7 counterexample: the claim says every submission not starting with
`http` is enqueued and acknowledged, but a text whose class-token line has
no `=` (here just `warrior`) makes `SimulationRequest.__post_init__` raise
`IndexError`: nothing is enqueued and no acknowledgement is sent. -/
theorem C7_counterexample :
    pyStartsWith "warrior" "http" = false ∧
    _add_to_queue [] "warrior" "tyrande" false = ([], SubmitResult.raised) := by
  exact ⟨rfl, rfl⟩

/-- C7 (amended): a submission starting with `http` is rejected with the
armory message and never enqueued; any other submission whose name
extraction succeeds is appended at the back of the queue with an
acknowledgement naming the extracted character; any other submission whose
name extraction raises leaves the queue unchanged with neither
acknowledgement nor rejection message. -/
theorem C7_submission (q : List SimulationRequest) (ch author : String) (sc : Bool) :
    (pyStartsWith ch "http" = true →
      _add_to_queue q ch author sc =
        (q, SubmitResult.rejected "Character armory url is not supported (yet)!")) ∧
    (pyStartsWith ch "http" = false →
      ∀ name : String, get_character_name CLASSES ch author = some name →
        _add_to_queue q ch author sc =
          (q ++ [{ character := ch, author_name := author, scaling := sc }],
           SubmitResult.enqueued name ("Added **`" ++ name ++ "`** to the queue."))) ∧
    (pyStartsWith ch "http" = false →
      get_character_name CLASSES ch author = none →
      _add_to_queue q ch author sc = (q, SubmitResult.raised)) := by
  refine ⟨?_, ?_, ?_⟩
  · intro hh
    simp [_add_to_queue, hh]
  · intro hh name hn
    simp [_add_to_queue, hh, hn]
  · intro hh hn
    simp [_add_to_queue, hh, hn]

/-- Witness for C7 (amended): an armory url is rejected without enqueueing;
`warrior=thrall` is enqueued with the acknowledgement naming `Thrall`. -/
theorem C7_witness :
    _add_to_queue [] "http://armory" "peder" false =
      ([], SubmitResult.rejected "Character armory url is not supported (yet)!") ∧
    _add_to_queue [] "warrior=thrall" "peder" false =
      ([{ character := "warrior=thrall", author_name := "peder", scaling := false }],
       SubmitResult.enqueued "Thrall" "Added **`Thrall`** to the queue.") := by
  exact ⟨(C7_submission [] "http://armory" "peder" false).1 (by decide),
         (C7_submission [] "warrior=thrall" "peder" false).2.1 (by decide) "Thrall"
           (by decide)⟩

/-- C8: when the first class-token line of the character text contains no
`=`, `line.split("=")` has a single element and taking index 1 raises
`IndexError` (modelled as `none`); the fallback to the submitter's name is
not taken, and at submission time the job construction fails: the queue is
unchanged and the result is `raised`. -/
theorem C8_missing_delimiter (ch author line : String)
    (hline : firstClassLine CLASSES ch = some line) (hne : '=' ∉ line.data) :
    get_character_name CLASSES ch author = none ∧
    ∀ (q : List SimulationRequest) (sc : Bool),
      pyStartsWith ch "http" = false →
      _add_to_queue q ch author sc = (q, SubmitResult.raised) := by
  have hg : get_character_name CLASSES ch author = none := by
    have hs : pySplit '=' line = [line] := pySplit_of_not_mem '=' line hne
    simp [get_character_name, hline, hs]
  refine ⟨hg, ?_⟩
  intro q sc hh
  simp [_add_to_queue, hh, hg]

/-- Witness for C8 at the one-word text `warrior`. -/
theorem C8_witness :
    get_character_name CLASSES "warrior" "peder" = none ∧
    _add_to_queue [] "warrior" "peder" false = ([], SubmitResult.raised) := by
  have h := C8_missing_delimiter "warrior" "peder" "warrior" (by decide) (by decide)
  exact ⟨h.1, h.2 [] false (by decide)⟩

/-- C9: calling the iterations or threads command with the value 0 falls
into the `if not iterations:` display branch — the current value is shown
and the registry entry is untouched — while other below-minimum values such
as 499 or -1 produce the out-of-range error. -/
theorem C9_zero_shows_current (p : Parameter) :
    setget_iterations p (some 0) = (p, CmdReply.showCurrent p.value) ∧
    setget_iterations p none = (p, CmdReply.showCurrent p.value) ∧
    setget_threads p (some 0) = (p, CmdReply.showCurrent p.value) ∧
    setget_iterations iterParam (some 499) =
      (iterParam, CmdReply.err "iterations value must be at least 500.") ∧
    setget_iterations iterParam (some (-1)) =
      (iterParam, CmdReply.err "iterations value must be at least 500.") := by
  exact ⟨rfl, rfl, rfl, rfl, rfl⟩

/-- C10: an author without the `guild_permissions` attribute — any
direct-message context — fails the `admins_only` predicate regardless of
their id, so the `.threads` command body never runs: no reply, no registry
change. -/
theorem C10_dm_denied (a : Author) (p : Parameter) (threads : Option Int)
    (h : a.guild_permissions = none) :
    admins_only a = false ∧ threads_command a p threads = (p, none) := by
  have ha : admins_only a = false := by
    unfold admins_only
    rw [h]
  exact ⟨ha, by simp [threads_command, ha]⟩

/-- Witness for C10: even the hardcoded owner identity is denied in a
direct message. -/
theorem C10_witness :
    admins_only { id := OWNER_ID, guild_permissions := none } = false ∧
    threads_command { id := OWNER_ID, guild_permissions := none } thrParam (some 2) =
      (thrParam, none) :=
  C10_dm_denied { id := OWNER_ID, guild_permissions := none } thrParam (some 2) rfl

/-- Witness for C6 (amended) on the default registry: in scaling mode the
built text does match the spec's blank-line shape. -/
theorem C6_witness :
    make_simc_profile PARAMS true "warrior=thrall" =
      spec_build PARAMS true "warrior=thrall" :=
  (C6_profile_text PARAMS "warrior=thrall").1

/-- Witness for C9 on the default iterations parameter: 0 shows the current
value of 5000 and leaves the entry unchanged. -/
theorem C9_witness :
    setget_iterations iterParam (some 0) =
      (iterParam, CmdReply.showCurrent (ParamType.int 5000)) :=
  (C9_zero_shows_current iterParam).1
